import Mathlib

/-!
Verification of the Dzukou pricing pipeline core
(`src/dzukou_pricer/app/{optimize,demand,matching,ingest,features}.py`)
against its natural-language specification.

Numeric modelling: Python floats are modelled as exact rationals (`ℚ`);
the one genuinely real-valued operation, `ratio ** elasticity`, is
modelled twice: over `ℝ` with `Real.rpow` (faithful to an arbitrary real
elasticity, used for the demand-monotonicity claims) and over `ℚ` with an
integer elasticity (`zpow`, fully computable, used inside the grid-search
optimiser so that concrete runs can be evaluated by `decide`).
Python's stable `list.sort` / `sorted` are modelled by
`List.insertionSort`, which is extensionally the same function as any
stable sort by the same key.
-/

namespace Dzukou

/-- Python's `round(x, 2)`: round to cents, ties to even (banker's rounding),
modelled exactly on rationals. -/
def pyRound2 (q : ℚ) : ℚ :=
  let s := q * 100
  let f : ℤ := ⌊s⌋
  let r := s - (f : ℚ)
  let n : ℤ :=
    if r < 1/2 then f
    else if 1/2 < r then f + 1
    else if f % 2 = 0 then f else f + 1
  (n : ℚ) / 100

/-- Source `config.PSYCHOLOGICAL_ENDINGS = [0.99, 0.95]`. -/
def PSYCHOLOGICAL_ENDINGS : List ℚ := [0.99, 0.95]

/-- Source `optimize.round_to_ending` (optimize.py lines 18-29):
`integer_part = int(math.floor(price))`; for each ending in
`sorted(endings, reverse=True)`, return `round(integer_part + ending, 2)`
for the first ending with `integer_part + ending <= price`; otherwise
return `round(price, 2)`. -/
def round_to_ending (price : ℚ) (endings : List ℚ) : ℚ :=
  let integer_part : ℤ := ⌊price⌋
  match (endings.insertionSort (fun a b => b ≤ a)).find?
      (fun e => decide ((integer_part : ℚ) + e ≤ price)) with
  | some e => pyRound2 ((integer_part : ℚ) + e)
  | none => pyRound2 price

/-- Source `demand.expected_units` (demand.py lines 36-54) over the reals, with
`ratio ** elasticity` modelled by `Real.rpow` (Python's float `**` on a
positive base, idealised to exact real arithmetic):
returns `0.0` when `price <= 0 or reference_price <= 0`, else
`baseline_units * (price / reference_price) ** elasticity`. -/
noncomputable def expected_units (baseline_units price reference_price elasticity : ℝ) : ℝ :=
  if price ≤ 0 ∨ reference_price ≤ 0 then 0
  else baseline_units * (price / reference_price) ^ elasticity

/-- Source `demand.expected_units` again, restricted to an integer elasticity so
that it is exactly computable over `ℚ` (`zpow`); this is the demand
function used inside the grid-search optimiser below. -/
def expected_unitsQ (baseline_units price reference_price : ℚ) (elasticity : ℤ) : ℚ :=
  if price ≤ 0 ∨ reference_price ≤ 0 then 0
  else baseline_units * (price / reference_price) ^ elasticity

/-- Python's `x or default` on an optional float: `None` and `0.0` are
falsy, anything else is itself (optimize.py line 61,
`competitor_min_price or reference_price`). -/
def pyOr (o : Option ℚ) (default : ℚ) : ℚ :=
  match o with
  | some c => if c = 0 then default else c
  | none => default

/-- optimize.py line 58: `reference_price = current_price if current_price
and current_price > 0 else cogs * (1 + margin_floor)` (Python truthiness:
`None` and `0.0` are falsy). -/
def referencePrice (cogs : ℚ) (current_price : Option ℚ) (margin_floor : ℚ) : ℚ :=
  match current_price with
  | some cp => if cp ≠ 0 ∧ 0 < cp then cp else cogs * (1 + margin_floor)
  | none => cogs * (1 + margin_floor)

/-- optimize.py line 61: `lower_bound = max(cogs * (1 + margin_floor),
(competitor_min_price or reference_price) * 0.8)`. -/
def lowerBound (cogs margin_floor : ℚ) (competitor_min_price : Option ℚ)
    (reference_price : ℚ) : ℚ :=
  max (cogs * (1 + margin_floor)) (pyOr competitor_min_price reference_price * 0.8)

/-- optimize.py lines 63-66: `competitor_min_price * 1.2` when the
competitor price is truthy, else `reference_price * 1.5`. -/
def upperBoundRaw (competitor_min_price : Option ℚ) (reference_price : ℚ) : ℚ :=
  match competitor_min_price with
  | some c => if c = 0 then reference_price * 1.5 else c * 1.2
  | none => reference_price * 1.5

/-- optimize.py lines 68-69: `if upper_bound < lower_bound: upper_bound =
lower_bound * 1.2`. -/
def upperBound (lower_bound upper_bound_raw : ℚ) : ℚ :=
  if upper_bound_raw < lower_bound then lower_bound * 1.2 else upper_bound_raw

/-- Number of iterations of the while loop of optimize.py lines 75-78
(`p = lower_bound; while p <= upper_bound + 1e-6: ...; p += price_step`):
for a positive step the visited points are `lower_bound + k * price_step`
for `k < gridCount`.  A non-positive step makes the source loop diverge;
that case is modelled as an empty grid and excluded by hypothesis in the
theorems below. -/
def gridCount (lower_bound upper_bound price_step : ℚ) : ℕ :=
  if 0 < price_step ∧ lower_bound ≤ upper_bound + 1e-6 then
    (⌊(upper_bound + 1e-6 - lower_bound) / price_step⌋).toNat + 1
  else 0

/-- optimize.py lines 74-80: collect `round_to_ending(p)` over the grid,
then `sorted(set(prices_to_check))` (deduplicate and sort ascending). -/
def pricesToCheck (lower_bound upper_bound price_step : ℚ) (endings : List ℚ) : List ℚ :=
  ((((List.range (gridCount lower_bound upper_bound price_step)).map
      (fun k : ℕ => lower_bound + (k : ℚ) * price_step)).map
      (fun p => round_to_ending p endings)).dedup).insertionSort (fun a b => a ≤ b)

/-- One iteration of the loop of optimize.py lines 81-87.  The running
state is `(best_price, best_units, best_profit)`; `best_profit` starts at
`-float("inf")`, modelled as `none` (strictly below every rational, so the
first iteration always updates). -/
def searchStep (cogs reference_price baseline_units : ℚ) (elasticity : ℤ)
    (st : ℚ × ℚ × Option ℚ) (price : ℚ) : ℚ × ℚ × Option ℚ :=
  let units := expected_unitsQ baseline_units price reference_price elasticity
  let profit := (price - cogs) * units
  match st.2.2 with
  | none => (price, units, some profit)
  | some bp => if bp < profit then (price, units, some profit) else st

/-- The full grid search of optimize.py lines 71-87, starting from
`(lower_bound, 0.0, -inf)`. -/
def searchBest (cogs reference_price baseline_units : ℚ) (elasticity : ℤ)
    (lower_bound : ℚ) (prices : List ℚ) : ℚ × ℚ × Option ℚ :=
  prices.foldl (searchStep cogs reference_price baseline_units elasticity)
    (lower_bound, 0, none)

/-- Source `optimize.optimise_price` (optimize.py lines 32-98).  Errors
(`ValueError` for non-positive COGS, the spec's InvalidInput) are
modelled with `Except`.  The returned tuple is `(best_price, best_units,
best_profit, profit_uplift_pct, demand_uplift_pct)`; `best_profit` is
`none` exactly when the grid is empty (Python's `-inf`), and the uplift
components are `none` where Python returns `None`. -/
def optimise_price (cogs : ℚ) (elasticity : ℤ)
    (current_price competitor_min_price : Option ℚ)
    (margin_floor : ℚ := 0.10) (baseline_units : ℚ := 100)
    (price_step : ℚ := 0.50) :
    Except String (ℚ × ℚ × Option ℚ × Option ℚ × Option ℚ) :=
  if cogs ≤ 0 then .error "COGS must be positive to compute margin floor"
  else
    let reference_price := referencePrice cogs current_price margin_floor
    let lower_bound := lowerBound cogs margin_floor competitor_min_price reference_price
    let upper_bound := upperBound lower_bound (upperBoundRaw competitor_min_price reference_price)
    let prices := pricesToCheck lower_bound upper_bound price_step PSYCHOLOGICAL_ENDINGS
    let best := searchBest cogs reference_price baseline_units elasticity lower_bound prices
    let uplifts : Option ℚ × Option ℚ :=
      match current_price with
      | some cp =>
        if cp ≠ 0 ∧ 0 < cp then
          let current_units := expected_unitsQ baseline_units cp reference_price elasticity
          let current_profit := (cp - cogs) * current_units
          ((match best.2.2 with
            | some bp => if current_profit ≠ 0 then
                some ((bp - current_profit) / current_profit * 100) else none
            | none => none),
           if current_units ≠ 0 then
             some ((best.2.1 - current_units) / current_units * 100) else none)
        else (none, none)
      | none => (none, none)
    .ok (best.1, best.2.1, best.2.2, uplifts.1, uplifts.2)

/-- Source `types.Item` (the fields consumed by the core pipeline). -/
structure Item where
  item_id : String
  item_name : String
  brand : Option String := none
  category : Option String := none
  cogs : Option ℚ := none
  current_price : Option ℚ := none
  currency : Option String := none
  size : Option String := none
  pack_count : Option Int := none
deriving DecidableEq

/-- Source `types.Candidate` (the fields consumed by matching/features). -/
structure Candidate where
  store : String
  url : String
  title : String
  brand : Option String := none
  size : Option String := none
  shelf_price : Option ℚ := none
  compare_at_price : Option ℚ := none
  shipping_cost : Option ℚ := none
  currency : Option String := none
deriving DecidableEq

/-- Source `types.MatchedCandidate`: a candidate with its match score and the
currency-converted effective price (defaults to `None`). -/
structure MatchedCandidate where
  candidate : Candidate
  match_score : ℚ
  effective_price : Option ℚ := none
deriving DecidableEq

/-- Source `ingest.NormalisedItem`. -/
structure NormalisedItem where
  item : Item
  fingerprint : String
  size_in_base_units : Option ℚ
deriving DecidableEq

/-! ## Size parsing (ingest.py lines 17-54)

`SIZE_PATTERN = ([0-9\.]+)\s*(g|kg|ml|l|oz|fl oz|lb|pound|gm|gram|grams|litre|liter)`
applied with `re.search` on the lower-cased string. The search is
modelled directly: at each start position, the greedy quantity run
(digits and dots), then greedy whitespace, then the first alternative of
the alternation that literally matches.  Shrinking the greedy runs can
never rescue a failed unit match (quantity characters and whitespace are
disjoint from every alternative's first character), so this is exactly
the regex semantics. -/

def isQtyChar (c : Char) : Bool := c.isDigit || c == '.'

/-- Python's `\s`: space, tab, newline, carriage return, vertical tab,
form feed. -/
def isSpaceChar (c : Char) : Bool :=
  c == ' ' || c == '\t' || c == '\n' || c == '\r' || c == '\x0b' || c == '\x0c'

/-- The unit alternation, in source order.  `re` tries alternatives left
to right, so `l` shadows `lb` and `liter`/`litre`, and `g` shadows
`gm`/`gram`/`grams`. -/
def UNITS : List String :=
  ["g", "kg", "ml", "l", "oz", "fl oz", "lb", "pound", "gm", "gram", "grams", "litre", "liter"]

/-- First alternative of the alternation that literally matches at the
head of `l`. -/
def matchUnitAt (l : List Char) : Option String :=
  UNITS.find? (fun u => decide (u.toList = l.take u.toList.length))

/-- Source `re.search` for `SIZE_PATTERN`: returns the `(qty, unit)` groups of
the leftmost match. -/
def regexSearchSize : List Char → Option (String × String)
  | [] => none
  | c :: rest =>
    if isQtyChar c then
      let qty := (c :: rest).takeWhile isQtyChar
      let after := ((c :: rest).drop qty.length).dropWhile isSpaceChar
      match matchUnitAt after with
      | some u => some (String.mk qty, u)
      | none => regexSearchSize rest
    else regexSearchSize rest

def natOfDigits (l : List Char) : ℕ :=
  l.foldl (fun acc c => 10 * acc + (c.toNat - '0'.toNat)) 0

def fracOfDigits (l : List Char) : ℚ :=
  (natOfDigits l : ℚ) / (10 : ℚ) ^ l.length

/-- Python's `float(qty)` for a quantity group (a non-empty string of
digits and dots): succeeds exactly when there is at most one dot and at
least one digit, otherwise raises `ValueError` (modelled as `none`). -/
def pyFloatQty (s : String) : Option ℚ :=
  let cs := s.toList
  if cs.count '.' ≤ 1 ∧ cs.any Char.isDigit then
    let intPart := cs.takeWhile Char.isDigit
    let rest := cs.drop intPart.length
    let fracPart := match rest with
      | '.' :: t => t
      | _ => []
    some ((natOfDigits intPart : ℚ) + fracOfDigits fracPart)
  else none

/-- Source `ingest.parse_size` (ingest.py lines 22-54).  The uncaught
`ValueError` that `float` raises on a malformed quantity group is
modelled with `Except.error`. -/
def parse_size (size_str : String) : Except String (Option ℚ) :=
  if size_str = "" then .ok none
  else
    match regexSearchSize (size_str.toList.map Char.toLower) with
    | none => .ok none
    | some (qty, u) =>
      match pyFloatQty qty with
      | none => .error "could not convert string to float"
      | some q =>
        if u = "g" ∨ u = "gm" ∨ u = "gram" ∨ u = "grams" then .ok (some q)
        else if u = "kg" then .ok (some (q * 1000))
        else if u = "ml" then .ok (some q)
        else if u = "l" ∨ u = "litre" ∨ u = "liter" then .ok (some (q * 1000))
        else if u = "oz" ∨ u = "fl oz" then .ok (some (q * 28.35))
        else if u = "lb" ∨ u = "pound" then .ok (some (q * 453.59))
        else .ok none

/-! ## Matching (matching.py) -/

/-- Python truthiness of an optional string: `None` and `""` are falsy. -/
def pyTruthyStr : Option String → Bool
  | none => false
  | some s => !(s == "")

/-- Source `matching._brand_score` (matching.py lines 22-26). -/
def brand_score (item_brand candidate_brand : Option String) : ℚ :=
  if !(pyTruthyStr item_brand) || !(pyTruthyStr candidate_brand) then 0.5
  else if (item_brand.getD "").trim.toLower = (candidate_brand.getD "").trim.toLower
    then 1 else 0

/-- The first match of `([0-9]+\.?[0-9]*)` in a string, as a rational
(`float` on this group always succeeds). -/
def extractNum : List Char → Option ℚ
  | [] => none
  | c :: rest =>
    if c.isDigit then
      let ds := (c :: rest).takeWhile Char.isDigit
      match (c :: rest).drop ds.length with
      | '.' :: rest3 =>
        some ((natOfDigits ds : ℚ) + fracOfDigits (rest3.takeWhile Char.isDigit))
      | _ => some ((natOfDigits ds : ℚ))
    else extractNum rest

/-- Source `matching._size_score` (matching.py lines 29-50): `0.5` when either
side's size is unknown, `0.0` when the candidate size string has no
numeric token, and otherwise `1.0` iff `qty / size_item ∈ [0.9, 1.1]`.
A zero item size makes `qty / size_item` raise `ZeroDivisionError` in
the source, which the blanket `except Exception` turns into `0.0`;
that branch is modelled explicitly. -/
def size_score (size_item : Option ℚ) (size_candidate : Option String) : ℚ :=
  match size_item with
  | none => 0.5
  | some si =>
    if pyTruthyStr size_candidate = false then 0.5
    else
      match extractNum (size_candidate.getD "").toList with
      | none => 0
      | some qty =>
        if si = 0 then 0
        else if 0.9 ≤ qty / si ∧ qty / si ≤ 1.1 then 1 else 0

/-- The text the listing contributes to title similarity
(matching.py lines 68-70): `" ".join(filter(None, [brand or "", title,
size or "", url]))`. -/
def listingText (c : Candidate) : String :=
  String.intercalate " "
    (([c.brand.getD "", c.title, c.size.getD "", c.url]).filter (fun s => !(s == "")))

/-- The combined weighted score of matching.py line 74, parameterised by
the title-similarity oracle (`rapidfuzz.fuzz.token_sort_ratio / 100`, an
external dependency of the repository). -/
def combinedScore (string_score : String → String → ℚ)
    (item : NormalisedItem) (c : Candidate) : ℚ :=
  0.6 * string_score item.fingerprint (listingText c)
    + 0.2 * brand_score item.item.brand c.brand
    + 0.2 * size_score item.size_in_base_units c.size

/-- The retained matches in input order (the loop of matching.py
lines 66-76: keep a candidate iff its score is `>= 0.3`). -/
def preMatched (string_score : String → String → ℚ)
    (item : NormalisedItem) (candidates : List Candidate) : List MatchedCandidate :=
  candidates.filterMap (fun cand =>
    let score := combinedScore string_score item cand
    if 0.3 ≤ score then some ⟨cand, score, none⟩ else none)

/-- Descending order by match score (the key of the stable
`matched.sort(key=..., reverse=True)` of matching.py line 78). -/
def scoreGE (a b : MatchedCandidate) : Prop := b.match_score ≤ a.match_score

instance : DecidableRel scoreGE :=
  fun a b => inferInstanceAs (Decidable (b.match_score ≤ a.match_score))

instance : IsTotal MatchedCandidate scoreGE :=
  ⟨fun a b => le_total b.match_score a.match_score⟩

instance : IsTrans MatchedCandidate scoreGE :=
  ⟨fun _ _ _ hab hbc => le_trans hbc hab⟩

/-- Source `matching.match_candidates` (matching.py lines 53-79): score, filter
by the `0.3` threshold, stable-sort descending by score (Python's
`list.sort` is stable; any stable sort by the same key is the same
function, here `insertionSort`). -/
def match_candidates (string_score : String → String → ℚ)
    (item : NormalisedItem) (candidates : List Candidate) : List MatchedCandidate :=
  (preMatched string_score item candidates).insertionSort scoreGE

/-! ## Competitor features (features.py) -/

/-- The output record of `features.compute_competitor_features`
(a Python dict with these seven keys). -/
structure CompetitorFeatures where
  min_competitor : Option ℚ
  median_competitor : Option ℚ
  max_competitor : Option ℚ
  spread : Option ℚ
  num_competitors : ℕ
  competitor_index : Option ℚ
  undercut_pct : Option ℚ
deriving DecidableEq

/-- features.py line 25: `[cand.effective_price for cand in candidates
if cand.effective_price]` — Python truthiness drops both `None` and
`0.0`. -/
def pyPrices (cands : List MatchedCandidate) : List ℚ :=
  cands.filterMap (fun cand =>
    match cand.effective_price with
    | some p => if p = 0 then none else some p
    | none => none)

/-- Python `min` on a non-empty list (the empty case is unreachable in
the source, which guards on `if not prices`). -/
def listMin : List ℚ → ℚ
  | [] => 0
  | x :: xs => xs.foldl min x

/-- Python `max` on a non-empty list. -/
def listMax : List ℚ → ℚ
  | [] => 0
  | x :: xs => xs.foldl max x

/-- Source `statistics.median`: sort, take the middle element (odd length) or
the mean of the two middle elements (even length). -/
def pyMedian (l : List ℚ) : ℚ :=
  let s := l.insertionSort (fun a b => a ≤ b)
  let n := s.length
  if n % 2 = 1 then s.getD (n / 2) 0
  else (s.getD (n / 2 - 1) 0 + s.getD (n / 2) 0) / 2

/-- Source `features.compute_competitor_features` (features.py lines 15-55). -/
def compute_competitor_features (current_price : Option ℚ)
    (cands : List MatchedCandidate) : CompetitorFeatures :=
  let prices := pyPrices cands
  if prices = [] then ⟨none, none, none, none, 0, none, none⟩
  else
    let min_price := listMin prices
    let max_price := listMax prices
    let med_price := pyMedian prices
    let spread := max_price - min_price
    let num := prices.length
    let ci_up : Option ℚ × Option ℚ :=
      match current_price with
      | some cp =>
        if cp ≠ 0 ∧ 0 < cp then (some (min_price / cp), some ((cp - min_price) / cp))
        else (none, none)
      | none => (none, none)
    ⟨some min_price, some med_price, some max_price, some spread, num, ci_up.1, ci_up.2⟩

/-- A minimal catalogue item for the matcher witnesses. -/
def sampleItem : NormalisedItem :=
  ⟨⟨"id1", "name", none, none, none, none, none, none, none⟩, "name", none⟩

/-- A minimal competitor listing for the matcher witnesses. -/
def sampleCandidate : Candidate :=
  ⟨"storeA", "urlA", "titleA", none, none, none, none, none, none⟩

/-- A title-similarity oracle that yields a combined score of exactly
`0.3` on `sampleItem`/`sampleCandidate` (both neutral `0.5` components
contribute `0.2`, and `0.6 * (1/6) = 0.1`). -/
def sampleScore : String → String → ℚ := fun _ _ => 1/6

/-- A matched listing whose effective price is present but `0.0`
(non-null yet falsy in Python). -/
def zeroPriceCandidate : MatchedCandidate :=
  ⟨⟨"storeZ", "urlZ", "titleZ", none, none, none, none, none, none⟩, 1, some 0⟩
lemma pyRound2_ge (q : ℚ) : q - 1/200 ≤ pyRound2 q := by
  simp only [pyRound2]
  have h1 : ((⌊q * 100⌋ : ℤ) : ℚ) ≤ q * 100 := Int.floor_le _
  have h2 : q * 100 < ((⌊q * 100⌋ : ℤ) : ℚ) + 1 := Int.lt_floor_add_one _
  split_ifs <;> push_cast <;> linarith

lemma pyRound2_eq_self {q : ℚ} (m : ℤ) (hm : q * 100 = (m : ℚ)) : pyRound2 q = q := by
  simp only [pyRound2]
  have hfl : ⌊q * 100⌋ = m := by rw [hm]; exact Int.floor_intCast m
  rw [hfl, hm]
  norm_num
  linarith

/-- With the default endings `[0.99, 0.95]`, snapping a price moves it
down by strictly less than `0.04` (and `round(·, 2)` moves it by at most
half a cent). -/
lemma round_to_ending_psych_gt (p : ℚ) : p - 0.04 < round_to_ending p PSYCHOLOGICAL_ENDINGS := by
  have hsort : PSYCHOLOGICAL_ENDINGS.insertionSort (fun a b => b ≤ a) = [0.99, 0.95] := by
    norm_num [PSYCHOLOGICAL_ENDINGS, List.insertionSort, List.orderedInsert]
  unfold round_to_ending
  rw [hsort]
  have hfl : p - 1 < ((⌊p⌋ : ℤ) : ℚ) := Int.sub_one_lt_floor p
  rcases le_or_lt (((⌊p⌋ : ℤ) : ℚ) + 0.99) p with h1 | h1
  · simp only [List.find?, decide_eq_true h1]
    rw [pyRound2_eq_self (100 * ⌊p⌋ + 99) (by push_cast; ring)]
    norm_num
    linarith
  · rcases le_or_lt (((⌊p⌋ : ℤ) : ℚ) + 0.95) p with h2 | h2
    · simp only [List.find?, decide_eq_false h1.not_le, decide_eq_true h2]
      rw [pyRound2_eq_self (100 * ⌊p⌋ + 95) (by push_cast; ring)]
      norm_num
      linarith
    · simp only [List.find?, decide_eq_false h1.not_le, decide_eq_false h2.not_le]
      have := pyRound2_ge p
      norm_num
      linarith


lemma searchStep_fst (cogs reference_price baseline_units : ℚ) (elasticity : ℤ)
    (st : ℚ × ℚ × Option ℚ) (price : ℚ) :
    (searchStep cogs reference_price baseline_units elasticity st price).1 = st.1 ∨
    (searchStep cogs reference_price baseline_units elasticity st price).1 = price := by
  rcases hst : st.2.2 with _ | bp <;> simp only [searchStep, hst]
  · simp
  · split_ifs <;> simp

lemma foldl_searchStep_fst (cogs reference_price baseline_units : ℚ) (elasticity : ℤ)
    (l : List ℚ) :
    ∀ st : ℚ × ℚ × Option ℚ,
      (l.foldl (searchStep cogs reference_price baseline_units elasticity) st).1 = st.1 ∨
      (l.foldl (searchStep cogs reference_price baseline_units elasticity) st).1 ∈ l := by
  induction l with
  | nil => intro st; left; rfl
  | cons p t ih =>
    intro st
    rw [List.foldl_cons]
    rcases ih (searchStep cogs reference_price baseline_units elasticity st p) with h | h
    · rcases searchStep_fst cogs reference_price baseline_units elasticity st p with h2 | h2
      · left; rw [h, h2]
      · right; rw [h, h2]; exact List.mem_cons_self p t
    · right; exact List.mem_cons_of_mem p h

/-- The price returned by the grid search is either the initial
`lower_bound` (empty grid) or one of the candidate prices. -/
lemma searchBest_fst (cogs reference_price baseline_units : ℚ) (elasticity : ℤ)
    (lower_bound : ℚ) (prices : List ℚ) :
    (searchBest cogs reference_price baseline_units elasticity lower_bound prices).1 = lower_bound ∨
    (searchBest cogs reference_price baseline_units elasticity lower_bound prices).1 ∈ prices :=
  foldl_searchStep_fst cogs reference_price baseline_units elasticity prices (lower_bound, 0, none)

/-- Every candidate price is the psychological snap of a raw grid point
`lower_bound + k * price_step`. -/
lemma mem_pricesToCheck {x lower_bound upper_bound price_step : ℚ} {endings : List ℚ}
    (hx : x ∈ pricesToCheck lower_bound upper_bound price_step endings) :
    ∃ k : ℕ, x = round_to_ending (lower_bound + (k : ℚ) * price_step) endings := by
  unfold pricesToCheck at hx
  rw [List.mem_insertionSort, List.mem_dedup, List.mem_map] at hx
  obtain ⟨p, hp, hsnap⟩ := hx
  rw [List.mem_map] at hp
  obtain ⟨k, _, hk⟩ := hp
  exact ⟨k, by rw [← hsnap, ← hk]⟩

/-- The first component of a successful `optimise_price` run is the price
selected by the grid search. -/
lemma optimise_price_ok_fst {cogs : ℚ} {elasticity : ℤ}
    {current_price competitor_min_price : Option ℚ}
    {margin_floor baseline_units price_step : ℚ}
    {out : ℚ × ℚ × Option ℚ × Option ℚ × Option ℚ}
    (hok : optimise_price cogs elasticity current_price competitor_min_price
      margin_floor baseline_units price_step = .ok out) :
    out.1 = (searchBest cogs (referencePrice cogs current_price margin_floor)
      baseline_units elasticity
      (lowerBound cogs margin_floor competitor_min_price
        (referencePrice cogs current_price margin_floor))
      (pricesToCheck
        (lowerBound cogs margin_floor competitor_min_price
          (referencePrice cogs current_price margin_floor))
        (upperBound
          (lowerBound cogs margin_floor competitor_min_price
            (referencePrice cogs current_price margin_floor))
          (upperBoundRaw competitor_min_price
            (referencePrice cogs current_price margin_floor)))
        price_step PSYCHOLOGICAL_ENDINGS)).1 := by
  by_cases hc : cogs ≤ 0
  · simp [optimise_price, hc] at hok
  · simp only [optimise_price, if_neg hc, Except.ok.injEq] at hok
    rw [← hok]

/-- The concrete grid for the spec's guardrail scenario
(`cogs=10, margin_floor=0.10, competitor_min_price=15, price_step=0.5`):
bounds 12 and 18, and snapping leaves every half-step point unchanged. -/
lemma pricesToCheck_12_18 :
    pricesToCheck 12 18 0.5 PSYCHOLOGICAL_ENDINGS =
      [12, 12.5, 13, 13.5, 14, 14.5, 15, 15.5, 16, 16.5, 17, 17.5, 18] := by
  have hc : gridCount 12 18 0.5 = 13 := by
    norm_num [gridCount]
    decide
  unfold pricesToCheck
  rw [hc, show List.range 13 = [0, 1, 2, 3, 4, 5, 6, 7, 8, 9, 10, 11, 12] from rfl]
  norm_num [round_to_ending, pyRound2, PSYCHOLOGICAL_ENDINGS,
    List.insertionSort, List.orderedInsert, List.find?, List.dedup, List.pwFilter]

section StableSort

variable {α : Type} (r : α → α → Prop) [DecidableRel r] (p : α → Bool)

lemma filter_orderedInsert_pos (a : α) (ha : p a = true)
    (h : ∀ b, p b = true → r a b) :
    ∀ l : List α, (l.orderedInsert r a).filter p = a :: l.filter p := by
  intro l
  induction l with
  | nil => simp [List.orderedInsert, ha]
  | cons b t ih =>
    by_cases hr : r a b
    · simp [List.orderedInsert, if_pos hr, List.filter_cons, ha]
    · have hpb : p b = false := by
        cases hpb : p b
        · rfl
        · exact absurd (h b hpb) hr
      simp [List.orderedInsert, if_neg hr, List.filter_cons, hpb, ih]

lemma filter_orderedInsert_neg (a : α) (ha : p a = false) :
    ∀ l : List α, (l.orderedInsert r a).filter p = l.filter p := by
  intro l
  induction l with
  | nil => simp [List.orderedInsert, ha]
  | cons b t ih =>
    by_cases hr : r a b
    · simp [List.orderedInsert, if_pos hr, List.filter_cons, ha]
    · simp [List.orderedInsert, if_neg hr, List.filter_cons, ih]

/-- Insertion sort is stable: the subsequence of elements satisfying a
predicate that forces mutual `r`-equivalence is unchanged. -/
lemma filter_insertionSort (h : ∀ a b, p a = true → p b = true → r a b) :
    ∀ l : List α, (l.insertionSort r).filter p = l.filter p := by
  intro l
  induction l with
  | nil => rfl
  | cons a t ih =>
    rw [List.insertionSort]
    cases hpa : p a
    · rw [filter_orderedInsert_neg r p a hpa, ih, List.filter_cons, hpa]
      simp
    · rw [filter_orderedInsert_pos r p a hpa (fun b hb => h a b hpa hb), ih,
        List.filter_cons, hpa]
      simp

end StableSort
lemma size_score_none_left (sc : Option String) : size_score none sc = 0.5 := rfl

lemma size_score_falsy (si : ℚ) (sc : Option String)
    (h : pyTruthyStr sc = false) : size_score (some si) sc = 0.5 := by
  simp [size_score, h]

lemma size_score_no_token (si : ℚ) (sc : Option String)
    (ht : pyTruthyStr sc = true)
    (hex : extractNum ((sc.getD "").toList) = none) :
    size_score (some si) sc = 0 := by
  simp [size_score, ht, show extractNum ((sc.getD "").data) = none from hex]

lemma size_score_token (si q : ℚ) (sc : Option String)
    (ht : pyTruthyStr sc = true)
    (hex : extractNum ((sc.getD "").toList) = some q) :
    size_score (some si) sc =
      if si = 0 then 0 else if 0.9 ≤ q / si ∧ q / si ≤ 1.1 then 1 else 0 := by
  simp [size_score, ht, show extractNum ((sc.getD "").data) = some q from hex]

/-- C1: the claim (and the source's own docstring) says
`round_to_ending(12.37, [0.99, 0.95]) == 11.99` and
`round_to_ending(15.02, [0.99, 0.95]) == 14.95`; the code instead never
decrements the integer part, so both candidates `12.99, 12.95`
(resp. `15.99, 15.95`) exceed the price and it falls back to the price
itself: it returns `12.37` and `15.02`. -/
theorem round_to_ending_contradicts_docstring :
    round_to_ending 12.37 PSYCHOLOGICAL_ENDINGS = 12.37 ∧
    round_to_ending 15.02 PSYCHOLOGICAL_ENDINGS = 15.02 ∧
    round_to_ending 12.37 PSYCHOLOGICAL_ENDINGS ≠ 11.99 ∧
    round_to_ending 15.02 PSYCHOLOGICAL_ENDINGS ≠ 14.95 := by
  refine ⟨?_, ?_, ?_, ?_⟩ <;>
    norm_num [round_to_ending, PSYCHOLOGICAL_ENDINGS, pyRound2,
      List.insertionSort, List.orderedInsert, List.find?]

/-- C2 (counterexample): with `cogs = 699/55` the margin floor is
`cogs * 1.1 = 13.98`, the grid is the single point `13.98`, and
psychological snapping returns `13.95 < 13.98`: the recommended price is
strictly below `cogs * (1 + margin_floor)`. -/
theorem optimise_price_below_margin_floor :
    (optimise_price (699/55) (-2) none (some (599/50)) (1/10) 100 (1/2)).map
      (fun t => t.1) = Except.ok (279/20) ∧
    (279/20 : ℚ) < (699/55) * (1 + 1/10) := by
  constructor
  · norm_num [optimise_price, referencePrice, lowerBound, pyOr, upperBoundRaw, upperBound,
      gridCount, pricesToCheck, round_to_ending, pyRound2, PSYCHOLOGICAL_ENDINGS,
      searchBest, searchStep, expected_unitsQ, List.range_succ,
      List.insertionSort, List.orderedInsert, List.find?, List.dedup, List.foldl,
      Except.map, max_def]
  · norm_num

/-- C2 (amended): for every successful run with a positive price step the
recommended price exceeds `cogs * (1 + margin_floor) - 0.04` (the search
grid never goes below the margin floor, and the psychological snap moves
a grid point down by strictly less than `0.04`); and in the spec's
concrete scenario `cogs=10, margin_floor=0.10, competitor_min_price=15`
(any elasticity, current price and baseline) the recommended price lies
in `[12, 18]`. -/
theorem optimise_price_margin_guardrail (cogs : ℚ) (elasticity : ℤ)
    (current_price competitor_min_price : Option ℚ)
    (margin_floor baseline_units price_step : ℚ)
    (out : ℚ × ℚ × Option ℚ × Option ℚ × Option ℚ)
    (hstep : 0 < price_step)
    (hok : optimise_price cogs elasticity current_price competitor_min_price
      margin_floor baseline_units price_step = .ok out) :
    cogs * (1 + margin_floor) - 0.04 < out.1 ∧
    (cogs = 10 ∧ margin_floor = 0.1 ∧ competitor_min_price = some 15 ∧ price_step = 0.5 →
      12 ≤ out.1 ∧ out.1 ≤ 18) := by
  have hfst := optimise_price_ok_fst hok
  set ref := referencePrice cogs current_price margin_floor with href
  set lower := lowerBound cogs margin_floor competitor_min_price ref with hlower
  set upper := upperBound lower (upperBoundRaw competitor_min_price ref) with hupper
  have hlb : cogs * (1 + margin_floor) ≤ lower := by
    rw [hlower]; exact le_max_left _ _
  constructor
  · rcases searchBest_fst cogs ref baseline_units elasticity lower
        (pricesToCheck lower upper price_step PSYCHOLOGICAL_ENDINGS) with h | h
    · rw [hfst, h]; linarith
    · obtain ⟨k, hk⟩ := mem_pricesToCheck h
      have hraw : lower ≤ lower + (k : ℚ) * price_step := by
        have : (0 : ℚ) ≤ (k : ℚ) * price_step :=
          mul_nonneg (Nat.cast_nonneg k) hstep.le
        linarith
      have hsnap := round_to_ending_psych_gt (lower + (k : ℚ) * price_step)
      rw [hfst, hk]
      have h004 : (0.04 : ℚ) = 1/25 := by norm_num
      rw [h004] at hsnap ⊢
      linarith
  · rintro ⟨hc10, hm01, hcm, hps⟩
    have hlow12 : lower = 12 := by
      rw [hlower, hc10, hm01, hcm]
      norm_num [lowerBound, pyOr, max_def]
    have hupp18 : upper = 18 := by
      rw [hupper, hlow12, hcm]
      norm_num [upperBound, upperBoundRaw]
    rcases searchBest_fst cogs ref baseline_units elasticity lower
        (pricesToCheck lower upper price_step PSYCHOLOGICAL_ENDINGS) with h | h
    · rw [hfst, h, hlow12]; norm_num
    · rw [hlow12, hupp18, hps, pricesToCheck_12_18] at h
      rw [hfst, hlow12, hupp18, hps, pricesToCheck_12_18]
      simp only [List.mem_cons, List.not_mem_nil, or_false] at h
      rcases h with h | h | h | h | h | h | h | h | h | h | h | h | h <;>
        rw [h] <;> norm_num

/-- Full concrete run backing the C2 witness: the spec's guardrail
scenario with elasticity `-2`, no current price, baseline 100. -/
lemma optimise_price_scenario_eval :
    optimise_price 10 (-2) none (some 15) 0.1 100 0.5 =
      .ok (18, 3025/81, some (24200/81), none, none) := by
  have h1 : referencePrice 10 none 0.1 = 11 := by norm_num [referencePrice]
  have h2 : lowerBound 10 0.1 (some 15) 11 = 12 := by
    norm_num [lowerBound, pyOr, max_def]
  have h3 : upperBound 12 (upperBoundRaw (some 15) 11) = 18 := by
    norm_num [upperBound, upperBoundRaw]
  have h6 : searchBest 10 11 100 (-2) 12
      [12, 12.5, 13, 13.5, 14, 14.5, 15, 15.5, 16, 16.5, 17, 17.5, 18] =
      (18, 3025/81, some (24200/81)) := by
    norm_num [searchBest, searchStep, expected_unitsQ, List.foldl]
  simp only [optimise_price, if_neg (by norm_num : ¬ (10 : ℚ) ≤ 0), h1, h2, h3,
    pricesToCheck_12_18, h6]

/-- C2 witness: the amended guardrail theorem applied to the concrete
scenario; the recommended price `18` satisfies both bounds. -/
theorem optimise_price_margin_guardrail_witness :
    (0 : ℚ) < 0.5 ∧
    (10 : ℚ) * (1 + 0.1) - 0.04 < 18 ∧ (12 ≤ (18 : ℚ) ∧ (18 : ℚ) ≤ 18) := by
  have h := optimise_price_margin_guardrail 10 (-2) none (some 15) 0.1 100 0.5
    (18, 3025/81, some (24200/81), none, none) (by norm_num)
    optimise_price_scenario_eval
  exact ⟨by norm_num, h.1, h.2 ⟨rfl, rfl, rfl, rfl⟩⟩

/-- C4: `optimise_price` fails (with the `ValueError` that models the
spec's InvalidInput) exactly when `cogs ≤ 0`; for a positive step every
run with positive COGS returns a result and surfaces no error. -/
theorem optimise_price_error_iff_cogs_nonpos (cogs : ℚ) (elasticity : ℤ)
    (current_price competitor_min_price : Option ℚ)
    (margin_floor baseline_units price_step : ℚ)
    (hstep : 0 < price_step) :
    (∃ msg, optimise_price cogs elasticity current_price competitor_min_price
      margin_floor baseline_units price_step = .error msg) ↔ cogs ≤ 0 := by
  by_cases hc : cogs ≤ 0
  · simp [optimise_price, hc]
  · simp [optimise_price, hc]

/-- C4 witness: the error criterion applied at `cogs = 0` and
`cogs = -5` (both rejected) and at `cogs = 10` (not rejected). -/
theorem optimise_price_error_iff_cogs_nonpos_witness :
    (0 : ℚ) < 0.5 ∧
    (∃ msg, optimise_price 0 (-1) none none 0.1 100 0.5 = .error msg) ∧
    (∃ msg, optimise_price (-5) (-1) none none 0.1 100 0.5 = .error msg) ∧
    ¬ ∃ msg, optimise_price 10 (-2) none (some 15) 0.1 100 0.5 = .error msg := by
  refine ⟨by norm_num,
    (optimise_price_error_iff_cogs_nonpos 0 (-1) none none 0.1 100 0.5
      (by norm_num)).mpr (by norm_num),
    (optimise_price_error_iff_cogs_nonpos (-5) (-1) none none 0.1 100 0.5
      (by norm_num)).mpr (by norm_num),
    fun herr => ?_⟩
  have := (optimise_price_error_iff_cogs_nonpos 10 (-2) none (some 15) 0.1 100 0.5
    (by norm_num)).mp herr
  norm_num at this

/-- C3 (counterexample): `expected_units` is not strictly decreasing on
all of `ℝ`: with `elasticity = -1 < 0`, `baseline = 100`,
`reference_price = 10` and prices `p1 = 0 < p2 = 10`, the projection at
`p2` is `100`, strictly above the `0` projected at `p1` (the code returns
`0.0` for any non-positive price). -/
theorem expected_units_not_strict_anti :
    (-1 : ℝ) < 0 ∧ (0 : ℝ) < 10 ∧
    expected_units 100 0 10 (-1) = 0 ∧
    expected_units 100 10 10 (-1) = 100 ∧
    ¬ expected_units 100 10 10 (-1) < expected_units 100 0 10 (-1) := by
  have h0 : expected_units 100 0 10 (-1) = 0 := by
    simp [expected_units]
  have h10 : expected_units 100 10 10 (-1) = 100 := by
    rw [expected_units, if_neg (by norm_num)]
    norm_num [Real.rpow_neg_one]
  exact ⟨by norm_num, by norm_num, h0, h10, by rw [h0, h10]; norm_num⟩

/-- C3 (amended): for a fixed negative elasticity, positive baseline and
positive reference price, `expected_units` is strictly decreasing on the
positive price range: `0 < p1 < p2` implies the projection at `p2` is
strictly below the one at `p1`. -/
theorem expected_units_strict_anti (baseline_units reference_price elasticity p1 p2 : ℝ)
    (hb : 0 < baseline_units) (href : 0 < reference_price) (he : elasticity < 0)
    (hp1 : 0 < p1) (h12 : p1 < p2) :
    expected_units baseline_units p2 reference_price elasticity <
      expected_units baseline_units p1 reference_price elasticity := by
  rw [expected_units, expected_units,
    if_neg (by simp only [not_or, not_le]; exact ⟨hp1.trans h12, href⟩),
    if_neg (by simp only [not_or, not_le]; exact ⟨hp1, href⟩)]
  refine mul_lt_mul_of_pos_left ?_ hb
  refine Real.rpow_lt_rpow_of_neg (div_pos hp1 href) ?_ he
  exact div_lt_div_of_pos_right h12 href

/-- C3 witness: the amended monotonicity at
`baseline=100, reference=10, elasticity=-1, p1=5, p2=10`. -/
theorem expected_units_strict_anti_witness :
    (0 : ℝ) < 100 ∧ (0 : ℝ) < 10 ∧ (-1 : ℝ) < 0 ∧ (0 : ℝ) < 5 ∧ (5 : ℝ) < 10 ∧
    expected_units 100 10 10 (-1) < expected_units 100 5 10 (-1) :=
  ⟨by norm_num, by norm_num, by norm_num, by norm_num, by norm_num,
    expected_units_strict_anti 100 10 (-1) 5 10 (by norm_num) (by norm_num)
      (by norm_num) (by norm_num) (by norm_num)⟩

/-! ## Data model (types.py) and fingerprinting (ingest.py) -/

lemma fracOfDigits_nil : fracOfDigits [] = 0 := by
  rw [fracOfDigits, show natOfDigits [] = 0 from rfl]
  norm_num

/-- C8: the size-parsing table.  Five of the spec's six rows hold, but
`"2 lb"` parses to `2000.0`, not `907.18`: the regex alternation tries
`l` before `lb`, so the unit group matches the litre unit `"l"` and the
pound branch (documented in the source's own docstring as
`lb -> ×453.59`) is unreachable for `"lb"`. -/
theorem parse_size_table :
    parse_size "500g" = .ok (some 500) ∧
    parse_size "1.5kg" = .ok (some 1500) ∧
    parse_size "8 oz" = .ok (some 226.8) ∧
    parse_size "1l" = .ok (some 1000) ∧
    parse_size "n/a" = .ok none ∧
    parse_size "2 lb" = .ok (some 2000) ∧
    parse_size "2 lb" ≠ .ok (some 907.18) := by
  have h500 : parse_size "500g" =
      .ok (some ((natOfDigits ['5', '0', '0'] : ℚ) + fracOfDigits [])) := rfl
  have h15 : parse_size "1.5kg" =
      .ok (some (((natOfDigits ['1'] : ℚ) + fracOfDigits ['5']) * 1000)) := rfl
  have h8 : parse_size "8 oz" =
      .ok (some (((natOfDigits ['8'] : ℚ) + fracOfDigits []) * 28.35)) := rfl
  have h1l : parse_size "1l" =
      .ok (some (((natOfDigits ['1'] : ℚ) + fracOfDigits []) * 1000)) := rfl
  have h2lb : parse_size "2 lb" =
      .ok (some (((natOfDigits ['2'] : ℚ) + fracOfDigits []) * 1000)) := rfl
  have hva : (fracOfDigits ['5'] : ℚ) = 5/10 := by
    rw [fracOfDigits, show natOfDigits ['5'] = 5 from by decide]
    norm_num
  refine ⟨?_, ?_, ?_, ?_, rfl, ?_, ?_⟩ <;>
    simp only [h500, h15, h8, h1l, h2lb, fracOfDigits_nil, hva,
      show natOfDigits ['5', '0', '0'] = 500 from by decide,
      show natOfDigits ['1'] = 1 from by decide,
      show natOfDigits ['8'] = 8 from by decide,
      show natOfDigits ['2'] = 2 from by decide,
      Except.ok.injEq, Option.some.injEq, ne_eq] <;>
    norm_num

/-- C9: `parse_size` is not total in the source: the quantity group
`[0-9\.]+` can capture `"1.2.3"`, on which the uncaught
`float("1.2.3")` raises `ValueError`.  Ordinary unparseable strings do
return `None`. -/
theorem parse_size_raises_on_malformed_qty :
    parse_size "1.2.3kg" = .error "could not convert string to float" ∧
    parse_size "" = .ok none ∧
    parse_size "no size here" = .ok none :=
  ⟨rfl, rfl, rfl⟩

/-- C6: a candidate appears among the matches exactly when it is one of
the input candidates and its combined weighted score
(`0.6*title + 0.2*brand + 0.2*size`) is `≥ 0.3`; in particular a
candidate scoring exactly `0.3` is retained and any lower score is
silently dropped. -/
theorem match_candidates_threshold (string_score : String → String → ℚ)
    (item : NormalisedItem) (candidates : List Candidate) (c : Candidate) :
    (∃ m ∈ match_candidates string_score item candidates, m.candidate = c) ↔
      (c ∈ candidates ∧ 0.3 ≤ combinedScore string_score item c) := by
  constructor
  · rintro ⟨m, hm, hmc⟩
    rw [match_candidates, List.mem_insertionSort] at hm
    simp only [preMatched, List.mem_filterMap] at hm
    obtain ⟨a, ha, hfa⟩ := hm
    by_cases hsc : (0.3 : ℚ) ≤ combinedScore string_score item a
    · rw [if_pos hsc] at hfa
      obtain rfl := Option.some.injEq _ _ ▸ hfa
      subst hmc
      exact ⟨ha, hsc⟩
    · rw [if_neg hsc] at hfa
      cases hfa
  · rintro ⟨hc, hsc⟩
    refine ⟨⟨c, combinedScore string_score item c, none⟩, ?_, rfl⟩
    rw [match_candidates, List.mem_insertionSort]
    simp only [preMatched, List.mem_filterMap]
    exact ⟨c, hc, by rw [if_pos hsc]⟩

/-- C6 witness: with combined score exactly `0.3` the candidate is
retained. -/
theorem match_candidates_threshold_witness :
    ∃ m ∈ match_candidates sampleScore sampleItem [sampleCandidate],
      m.candidate = sampleCandidate :=
  (match_candidates_threshold sampleScore sampleItem [sampleCandidate]
    sampleCandidate).mpr
    ⟨List.mem_singleton.mpr rfl, by
      norm_num [combinedScore, sampleScore, sampleItem, sampleCandidate,
        brand_score, size_score, pyTruthyStr]⟩

/-- C7: the matcher's output is sorted by descending match score, and it
is stable: for every score value, the sub-list of matches with that
score is exactly the corresponding sub-list of the threshold-filtered
candidates in input order. -/
theorem match_candidates_sorted_stable (string_score : String → String → ℚ)
    (item : NormalisedItem) (candidates : List Candidate) :
    (match_candidates string_score item candidates).Sorted scoreGE ∧
    ∀ s : ℚ,
      (match_candidates string_score item candidates).filter
          (fun m => decide (m.match_score = s)) =
        (preMatched string_score item candidates).filter
          (fun m => decide (m.match_score = s)) := by
  refine ⟨List.sorted_insertionSort scoreGE _, fun s => ?_⟩
  exact filter_insertionSort scoreGE (fun m => decide (m.match_score = s))
    (fun a b ha hb => by
      have ha' := of_decide_eq_true ha
      have hb' := of_decide_eq_true hb
      unfold scoreGE
      rw [ha', hb'])
    (preMatched string_score item candidates)

/-- C7 witness: ordering and stability at a concrete run. -/
theorem match_candidates_sorted_stable_witness :
    (match_candidates sampleScore sampleItem [sampleCandidate]).Sorted scoreGE ∧
    (match_candidates sampleScore sampleItem [sampleCandidate]).filter
        (fun m => decide (m.match_score = 0.3)) =
      (preMatched sampleScore sampleItem [sampleCandidate]).filter
        (fun m => decide (m.match_score = 0.3)) :=
  ⟨(match_candidates_sorted_stable sampleScore sampleItem [sampleCandidate]).1,
   (match_candidates_sorted_stable sampleScore sampleItem [sampleCandidate]).2 0.3⟩

/-- C10: `_size_score` is total with range `{0, 0.5, 1}`: a missing size
on either side (item size `None`, candidate size `None` or `""`) yields
`0.5`; a present candidate size with no numeric token yields `0`; and a
zero item size (a `ZeroDivisionError` swallowed by the blanket
`except`) yields `0` instead of raising. -/
theorem size_score_cases (size_item : Option ℚ) (size_candidate : Option String) :
    (size_score size_item size_candidate = 0 ∨
      size_score size_item size_candidate = 0.5 ∨
      size_score size_item size_candidate = 1) ∧
    (size_item = none ∨ pyTruthyStr size_candidate = false →
      size_score size_item size_candidate = 0.5) ∧
    (∀ x : ℚ, size_item = some x → pyTruthyStr size_candidate = true →
      extractNum ((size_candidate.getD "").toList) = none →
      size_score size_item size_candidate = 0) ∧
    (size_item = some 0 → pyTruthyStr size_candidate = true →
      (∃ q, extractNum ((size_candidate.getD "").toList) = some q) →
      size_score size_item size_candidate = 0) := by
  rcases size_item with _ | si
  · refine ⟨Or.inr (Or.inl (size_score_none_left _)),
      fun _ => size_score_none_left _, ?_, ?_⟩
    · intro x hx
      cases hx
    · intro hx
      cases hx
  · by_cases ht : pyTruthyStr size_candidate = false
    · refine ⟨Or.inr (Or.inl (size_score_falsy si _ ht)),
        fun _ => size_score_falsy si _ ht, ?_, ?_⟩
      · intro x _ htruthy
        rw [htruthy] at ht
        cases ht
      · intro _ htruthy
        rw [htruthy] at ht
        cases ht
    · have ht' : pyTruthyStr size_candidate = true := by
        revert ht
        cases pyTruthyStr size_candidate <;> simp
      have hnotnone : ∀ h : (some si : Option ℚ) = none ∨
          pyTruthyStr size_candidate = false, False := by
        rintro (h | h)
        · cases h
        · exact absurd h ht
      rcases hex : extractNum ((size_candidate.getD "").toList) with _ | q
      · refine ⟨Or.inl (size_score_no_token si _ ht' hex), ?_,
          fun x _ _ _ => size_score_no_token si _ ht' hex, ?_⟩
        · intro h
          exact absurd h hnotnone
        · rintro _ _ ⟨q, hq⟩
          cases hq
      · have hval := size_score_token si q _ ht' hex
        refine ⟨?_, fun h => absurd h hnotnone, ?_, ?_⟩
        · rw [hval]
          split_ifs
          · exact Or.inl rfl
          · exact Or.inr (Or.inr rfl)
          · exact Or.inl rfl
        · intro x _ _ hn
          cases hn
        · intro hsi _ _
          rw [Option.some.injEq] at hsi
          rw [hval, if_pos hsi]

/-- C10 witness: the four behaviours at concrete inputs. -/
theorem size_score_cases_witness :
    size_score none (some "5g") = 0.5 ∧
    size_score (some 100) none = 0.5 ∧
    size_score (some 100) (some "n/a") = 0 ∧
    size_score (some 0) (some "5g") = 0 :=
  ⟨(size_score_cases none (some "5g")).2.1 (Or.inl rfl),
   (size_score_cases (some 100) none).2.1 (Or.inr rfl),
   (size_score_cases (some 100) (some "n/a")).2.2.1 100 rfl rfl rfl,
   (size_score_cases (some 0) (some "5g")).2.2.2 rfl rfl ⟨_, rfl⟩⟩

/-- C5 (counterexample): the aggregator does not consider every listing
with a non-null `effective_price`: a listing priced at `0.0` is non-null
yet filtered out by Python truthiness, so the count is `0` while one
listing has a non-null price. -/
theorem compute_competitor_features_drops_zero_price :
    (compute_competitor_features none [zeroPriceCandidate]).num_competitors = 0 ∧
    ([zeroPriceCandidate].filter
      (fun m => m.effective_price.isSome)).length = 1 := by
  constructor
  · have hp : pyPrices [zeroPriceCandidate] = [] := by
      simp [pyPrices, zeroPriceCandidate]
    simp [compute_competitor_features, hp]
  · rfl

/-- C5 (amended): the aggregator considers exactly the listings whose
`effective_price` is truthy (non-null and non-zero): the reported count
is the number of such listings, and when none exists every field of the
result is `None`/0 (and the function, being total, never raises). -/
theorem compute_competitor_features_amended (current_price : Option ℚ)
    (cands : List MatchedCandidate) :
    (compute_competitor_features current_price cands).num_competitors =
      (pyPrices cands).length ∧
    (pyPrices cands = [] →
      compute_competitor_features current_price cands =
        ⟨none, none, none, none, 0, none, none⟩) := by
  by_cases hp : pyPrices cands = []
  · exact ⟨by simp [compute_competitor_features, hp],
      fun _ => by simp [compute_competitor_features, hp]⟩
  · exact ⟨by simp [compute_competitor_features, hp],
      fun h => absurd h hp⟩

/-- C5 witness: the empty-input aggregate. -/
theorem compute_competitor_features_amended_witness :
    (compute_competitor_features none []).num_competitors =
      (pyPrices []).length ∧
    compute_competitor_features none [] =
      ⟨none, none, none, none, 0, none, none⟩ :=
  ⟨(compute_competitor_features_amended none []).1,
   (compute_competitor_features_amended none []).2 rfl⟩

end Dzukou
